import Mathlib

/-!
Shallow embedding of the LogAnywhere core (src/src/lib.rs): the shared record
buffer, the per-provider dispatch loop (`buffer_loop`), the panic hook
(`set_panic_hook`), the `Logger` struct with `new`/`init`, and the `log::Log`
implementation (`enabled`, `log`).  Mutexes linearize accesses, so the
concurrent system is modelled as traces of atomic events over explicit state.
-/

namespace LogAnywhere

/-- Rust `log::Level` (the five levels of the `log` crate). -/
inductive Level where
  | error | warn | info | debug | trace
deriving DecidableEq, Repr

/-- Rust `Level::to_string()` — the `Display` impl prints the upper-case name. -/
def Level.toUpperString : Level → String
  | .error => "ERROR"
  | .warn  => "WARN"
  | .info  => "INFO"
  | .debug => "DEBUG"
  | .trace => "TRACE"

/-- Rust `log::LevelFilter`. -/
inductive LevelFilter where
  | off | error | warn | info | debug | trace
deriving DecidableEq, Repr

/-- `LogAnywhereRecord` (src/src/lib.rs lines 151-157): level string, message,
optional source file and line. -/
structure LogAnywhereRecord where
  level : String
  message : String
  file : Option String
  line : Option Nat
deriving DecidableEq, Repr

/-- The data of a `log::Record` that `Log::log` reads: `level()`, `args()`
(already rendered to a string), `file()`, `line()`. -/
structure LogRecord where
  level : Level
  args : String
  file : Option String
  line : Option Nat
deriving DecidableEq, Repr

/-- The data of a `log::Metadata` that `Log::enabled` receives. -/
structure Metadata where
  level : Level
deriving DecidableEq, Repr

/-- The conversion performed inside `Log::log for Logger`
(src/src/lib.rs lines 168-178): build a `LogAnywhereRecord` from the call's
level (via `to_string()`), message, file and line. -/
def anywhereOfRecord (r : LogRecord) : LogAnywhereRecord :=
  { level := r.level.toUpperString
    message := r.args
    file := r.file
    line := r.line }

/-! ### The shared buffer as a linearized trace

`log_buffer_records` is an `Arc<Mutex<Vec<LogAnywhereRecord>>>`; every access
holds the mutex, so any concurrent execution is a sequence of atomic `append`
(`Vec::push` in `Log::log` / the panic hook) and `drain` (`mem::take` in
`buffer_loop`, lines 42-45) operations. -/

/-- One linearized operation on the shared buffer. -/
inductive BufEv where
  | append (r : LogAnywhereRecord)
  | drain
deriving DecidableEq, Repr

/-- Buffer history: current contents plus the batches returned by the
`drain` (`mem::take`) calls so far, in order. -/
structure BufHist where
  buffer : List LogAnywhereRecord
  drains : List (List LogAnywhereRecord)
deriving DecidableEq, Repr

/-- One atomic buffer operation.  `append` is `Vec::push`; `drain` is
`mem::take(&mut *records_guard)`: it returns the whole current sequence and
leaves the empty one behind. -/
def bufStep (s : BufHist) : BufEv → BufHist
  | .append r => { s with buffer := s.buffer ++ [r] }
  | .drain    => { buffer := [], drains := s.drains ++ [s.buffer] }

/-- Run a sequence of buffer operations from a given history. -/
def bufRunFrom (s : BufHist) (evs : List BufEv) : BufHist :=
  evs.foldl bufStep s

/-- Run a sequence of buffer operations from the initial empty buffer
(`Arc::new(Mutex::new(Vec::new()))` in `Logger::new`). -/
def bufRun (evs : List BufEv) : BufHist :=
  bufRunFrom { buffer := [], drains := [] } evs

/-- The records appended by a sequence of buffer operations, in order. -/
def bufAppends (evs : List BufEv) : List LogAnywhereRecord :=
  evs.flatMap fun e => match e with
    | .append r => [r]
    | .drain => []

/-! ### The `Logger` struct -/

/-- The `Logger` struct (src/src/lib.rs lines 24-32).  Provider trait objects
are abstracted to opaque handles; each `Arc<Mutex<..>>` field is modelled by
its contents, since every access holds the mutex. -/
structure Logger where
  providers : List Nat
  log_buffer_records : List LogAnywhereRecord
  buffer_timing : Nat
  buffer_emptied_on_panic : Bool
  is_panicking : Bool
  level : LevelFilter
deriving DecidableEq, Repr

/-- `Logger::new` (src/src/lib.rs lines 107-120): stores the providers, timing
and level; buffer starts empty, both crash flags start false. -/
def Logger.new (providers : List Nat) (buffer_timing : Nat) (level : LevelFilter) :
    Logger :=
  { providers := providers
    log_buffer_records := []
    buffer_timing := buffer_timing
    buffer_emptied_on_panic := false
    is_panicking := false
    level := level }

/-- `Log::enabled for Logger` (src/src/lib.rs lines 163-165): the body is
literally `true`, ignoring both the metadata and the configured level. -/
def Logger.enabled (_ : Logger) (_ : Metadata) : Bool :=
  true

/-- `Log::log for Logger` (src/src/lib.rs lines 167-182): convert the call's
record and push it onto `log_buffer_records`. -/
def Logger.logRecord (l : Logger) (r : LogRecord) : Logger :=
  { l with log_buffer_records := l.log_buffer_records ++ [anywhereOfRecord r] }

/-- The drain performed by `buffer_loop` (src/src/lib.rs lines 42-45):
`mem::take` returns the whole buffer and leaves it empty. -/
def Logger.drainBuffer (l : Logger) : List LogAnywhereRecord × Logger :=
  (l.log_buffer_records, { l with log_buffer_records := [] })

/-- The externally observable effects of `Logger::init`
(src/src/lib.rs lines 122-148). -/
structure InitEffect where
  hookInstalled : Bool
  spawnedLoops : Nat
  result : Option Unit
deriving DecidableEq, Repr

/-- `Logger::init` (src/src/lib.rs lines 122-148): installs the panic hook,
spawns one `buffer_loop` task per provider, then calls
`log::set_boxed_logger`, which fails (`SetLoggerError`) iff a global logger
was already set; `globalLoggerSet` is that pre-existing global condition.
The hook installation and the spawns happen before the fallible call. -/
def Logger.init (l : Logger) (globalLoggerSet : Bool) : InitEffect :=
  { hookInstalled := true
    spawnedLoops := l.providers.length
    result := if globalLoggerSet then none else some () }

/-! ### The panic hook -/

/-- The data of `std::panic::PanicHookInfo` that the hook reads: the payload
and `location()` as an optional (file, line) pair. -/
structure PanicInfo where
  payload : String
  location : Option (String × Nat)
deriving DecidableEq, Repr

/-- What `p.to_string()` yields for a panic info `p` (the `Display` impl of
`PanicHookInfo`, external to this crate): the payload rendered together with
the location when one is present. -/
def PanicInfo.display (p : PanicInfo) : String :=
  match p.location with
  | some fl => "panicked at " ++ fl.1 ++ ":" ++ toString fl.2 ++ ": " ++ p.payload
  | none => "panicked: " ++ p.payload

/-- The crash record built by the hook (src/src/lib.rs lines 76-84): level
string `"PANIC"`, message `p.to_string()`, file and line from `location()`
when available. -/
def panicRecord (p : PanicInfo) : LogAnywhereRecord :=
  { level := "PANIC"
    message := p.display
    file := p.location.map Prod.fst
    line := p.location.map Prod.snd }

/-- The hook's final wait (src/src/lib.rs line 89), a spin loop re-reading
`buffer_emptied_on_panic` until it is true.  `flag k` is the value the k-th
poll observes; the interpreter runs at most `fuel` polls and returns the
index of the first successful poll, or `none` if the loop is still spinning
after `fuel` polls.  The source loop has no bound of its own. -/
def spinWaitAux (flag : Nat → Bool) : Nat → Nat → Option Nat
  | _, 0 => none
  | k, fuel + 1 => if flag k then some k else spinWaitAux flag (k + 1) fuel

/-- Run the hook's spin wait from the first poll. -/
def spinWait (flag : Nat → Bool) (fuel : Nat) : Option Nat :=
  spinWaitAux flag 0 fuel

/-! ### The concurrent system as a linearized trace

The shared state touched by the facade, the hook and the `buffer_loop` tasks
is the buffer and the two crash flags, each behind its own mutex; `received`
additionally records, per provider index, the batches passed to that
provider's `send_log`, so delivery is observable.  A concurrent execution is
a sequence of atomic events at this granularity; a `buffer_loop` cycle's only
suspension point between its drain and its panic check is the awaited
`send_log`, so records appended during that await are the cycle's
`arrivals`. -/

/-- Shared system state plus the delivery history of each provider. -/
structure GState where
  buffer : List LogAnywhereRecord
  is_panicking : Bool
  buffer_emptied_on_panic : Bool
  received : Nat → List (List LogAnywhereRecord)

/-- The state at `Logger::init`: empty buffer, both flags false, nothing
delivered yet. -/
def initG : GState :=
  { buffer := []
    is_panicking := false
    buffer_emptied_on_panic := false
    received := fun _ => [] }

/-- First action of the panic hook (src/src/lib.rs line 71): set
`is_panicking` to true. -/
def hookSetPanicking (s : GState) : GState :=
  { s with is_panicking := true }

/-- Next action of the hook (src/src/lib.rs lines 76-86): push the crash
record onto the shared buffer. -/
def hookAppendRecord (p : PanicInfo) (s : GState) : GState :=
  { s with buffer := s.buffer ++ [panicRecord p] }

/-- The hook's whole effect before it starts its spin wait
(src/src/lib.rs lines 70-89): flag first, then the append; the wait on
`buffer_emptied_on_panic` begins only from the resulting state. -/
def hookPreWait (p : PanicInfo) (s : GState) : GState :=
  hookAppendRecord p (hookSetPanicking s)

/-- One cycle of `buffer_loop` for provider `i` (src/src/lib.rs lines 41-61):
drain via `mem::take`; if the batch is empty do nothing until the sleep;
otherwise await `send_log` (during which `arrivals` are appended by other
threads), then, if `is_panicking`, re-check the buffer and set
`buffer_emptied_on_panic` when it is empty.  Returns the new state and the
batch passed to `send_log`, if any. -/
def buffer_loop_cycle (i : Nat) (arrivals : List LogAnywhereRecord) (s : GState) :
    GState × Option (List LogAnywhereRecord) :=
  if s.buffer.isEmpty then (s, none)
  else
    let msgs := s.buffer
    let s1 : GState :=
      { buffer := arrivals
        is_panicking := s.is_panicking
        buffer_emptied_on_panic := s.buffer_emptied_on_panic
        received := fun j => if j = i then s.received j ++ [msgs] else s.received j }
    if s1.is_panicking && s1.buffer.isEmpty then
      ({ s1 with buffer_emptied_on_panic := true }, some msgs)
    else
      (s1, some msgs)

/-- A linearized system event: an append by `Log::log` on some caller thread,
the panic hook's pre-wait actions, or one `buffer_loop` cycle of provider
`i` with the given mid-send arrivals. -/
inductive Ev where
  | append (r : LogAnywhereRecord)
  | hook (p : PanicInfo)
  | cycle (i : Nat) (arrivals : List LogAnywhereRecord)

/-- Effect of one system event on the shared state. -/
def step (s : GState) : Ev → GState
  | .append r => { s with buffer := s.buffer ++ [r] }
  | .hook p => hookPreWait p s
  | .cycle i arrivals => (buffer_loop_cycle i arrivals s).1

/-- Run a sequence of system events. -/
def run (s : GState) (evs : List Ev) : GState :=
  evs.foldl step s

/-- The records an event offers for appending (the cycle case lists the
mid-send arrivals). -/
def evAppends : Ev → List LogAnywhereRecord
  | .append r => [r]
  | .hook p => [panicRecord p]
  | .cycle _ arrivals => arrivals

/-- Whether an event is a `buffer_loop` cycle. -/
def Ev.isCycle : Ev → Bool
  | .cycle _ _ => true
  | _ => false

/-- Provider `i` has received record `r` in some delivered batch. -/
def deliveredTo (s : GState) (i : Nat) (r : LogAnywhereRecord) : Prop :=
  ∃ b ∈ s.received i, r ∈ b

/-- A sample record used in concrete executions. -/
def recA : LogAnywhereRecord :=
  { level := "INFO", message := "a", file := none, line := none }

/-- A single `log()` call followed by one dispatch cycle of each of two
registered providers: provider 0 wakes first and drains, provider 1 then
finds the buffer empty. -/
def c1Trace : List Ev :=
  [Ev.append recA, Ev.cycle 0 [], Ev.cycle 1 []]

theorem bufRunFrom_append (s : BufHist) (evs₁ evs₂ : List BufEv) :
    bufRunFrom s (evs₁ ++ evs₂) = bufRunFrom (bufRunFrom s evs₁) evs₂ :=
  List.foldl_append ..

theorem bufAppends_append (evs₁ evs₂ : List BufEv) :
    bufAppends (evs₁ ++ evs₂) = bufAppends evs₁ ++ bufAppends evs₂ :=
  List.flatMap_append ..

/-- Conservation: over any operation sequence, the concatenation of all drained
batches followed by the current buffer is exactly the append sequence. -/
theorem bufRunFrom_conservation (evs : List BufEv) (s : BufHist) :
    (bufRunFrom s evs).drains.flatten ++ (bufRunFrom s evs).buffer
      = s.drains.flatten ++ s.buffer ++ bufAppends evs := by
  induction evs generalizing s with
  | nil => simp [bufRunFrom, bufAppends]
  | cons e evs ih =>
    cases e with
    | append r =>
      have h := ih { s with buffer := s.buffer ++ [r] }
      simp only [bufRunFrom, List.foldl_cons, bufStep] at h ⊢
      rw [h]
      simp [bufAppends, List.append_assoc]
    | drain =>
      have h := ih { buffer := [], drains := s.drains ++ [s.buffer] }
      simp only [bufRunFrom, List.foldl_cons, bufStep] at h ⊢
      rw [h]
      simp [bufAppends, List.append_assoc]

theorem bufRun_conservation (evs : List BufEv) :
    (bufRun evs).drains.flatten ++ (bufRun evs).buffer = bufAppends evs := by
  have h := bufRunFrom_conservation evs { buffer := [], drains := [] }
  simpa [bufRun] using h

/-- The drained batches only grow as the run extends. -/
theorem bufRunFrom_drains_prefix (evs : List BufEv) (s : BufHist) :
    ∃ extra, (bufRunFrom s evs).drains = s.drains ++ extra := by
  induction evs generalizing s with
  | nil => exact ⟨[], by simp [bufRunFrom]⟩
  | cons e evs ih =>
    cases e with
    | append r =>
      obtain ⟨extra, hx⟩ := ih { s with buffer := s.buffer ++ [r] }
      exact ⟨extra, by simpa [bufRunFrom, bufStep] using hx⟩
    | drain =>
      obtain ⟨extra, hx⟩ := ih { buffer := [], drains := s.drains ++ [s.buffer] }
      refine ⟨[s.buffer] ++ extra, ?_⟩
      simp only [bufRunFrom, List.foldl_cons, bufStep] at hx ⊢
      rw [hx, List.append_assoc]

/-- Decomposing a run across a `drain` boundary: the drain returns exactly the
buffer contents at that point and records the batch at position
`(bufRun pre).drains.length` of the final drain list. -/
theorem bufRun_drain_batch (pre post : List BufEv) :
    (bufRun (pre ++ BufEv.drain :: post)).drains[(bufRun pre).drains.length]?
      = some (bufRun pre).buffer := by
  have hdecomp : bufRun (pre ++ BufEv.drain :: post)
      = bufRunFrom (bufStep (bufRun pre) .drain) post := by
    rw [bufRun, bufRunFrom, List.foldl_append, List.foldl_cons]
    rfl
  obtain ⟨extra, hx⟩ := bufRunFrom_drains_prefix post (bufStep (bufRun pre) .drain)
  rw [hdecomp, hx]
  show ((bufRun pre).drains ++ [(bufRun pre).buffer] ++ extra)[(bufRun pre).drains.length]?
      = some (bufRun pre).buffer
  rw [List.append_assoc, List.getElem?_append_right (Nat.le_refl _)]
  simp

/-- Folding `Log::log` calls appends the converted records in call order. -/
theorem foldl_logRecord_buffer (calls : List LogRecord) (l : Logger) :
    (calls.foldl Logger.logRecord l).log_buffer_records
      = l.log_buffer_records ++ calls.map anywhereOfRecord := by
  induction calls generalizing l with
  | nil => simp
  | cons c cs ih =>
    simp only [List.foldl_cons, List.map_cons]
    rw [ih]
    simp [Logger.logRecord, List.append_assoc]

/-- A `buffer_loop` cycle that finds the buffer empty changes nothing and
sends nothing. -/
theorem buffer_loop_cycle_empty (i : Nat) (a : List LogAnywhereRecord) (s : GState)
    (h : s.buffer = []) :
    buffer_loop_cycle i a s = (s, none) := by
  simp [buffer_loop_cycle, h]

/-- Characterization of a `buffer_loop` cycle that finds the buffer
non-empty: the whole buffer is sent to provider `i`, the buffer afterwards
holds exactly the mid-send arrivals, `is_panicking` is untouched, and
`buffer_emptied_on_panic` is set exactly when it already was set or the
cycle observes the panic flag with an empty post-send buffer. -/
theorem buffer_loop_cycle_nonempty (i : Nat) (a : List LogAnywhereRecord) (s : GState)
    (h : s.buffer ≠ []) :
    (buffer_loop_cycle i a s).1.buffer = a
    ∧ (buffer_loop_cycle i a s).1.is_panicking = s.is_panicking
    ∧ ((buffer_loop_cycle i a s).1.received
        = fun j => if j = i then s.received j ++ [s.buffer] else s.received j)
    ∧ (buffer_loop_cycle i a s).2 = some s.buffer
    ∧ (buffer_loop_cycle i a s).1.buffer_emptied_on_panic
        = (s.buffer_emptied_on_panic || (s.is_panicking && a.isEmpty)) := by
  have hne : s.buffer.isEmpty = false := by
    simpa [List.isEmpty_iff] using h
  by_cases hp : (s.is_panicking && a.isEmpty) = true
  · simp [buffer_loop_cycle, hne, hp]
  · simp only [Bool.not_eq_true] at hp
    simp [buffer_loop_cycle, hne, hp]

theorem run_cons (s : GState) (e : Ev) (evs : List Ev) :
    run s (e :: evs) = run (step s e) evs :=
  rfl

/-- With no `buffer_loop` cycle in the trace, appended records only
accumulate and `buffer_emptied_on_panic` never changes. -/
theorem run_no_cycle (evs : List Ev) (s : GState)
    (h : ∀ e ∈ evs, e.isCycle = false) :
    (run s evs).buffer = s.buffer ++ evs.flatMap evAppends
    ∧ (run s evs).buffer_emptied_on_panic = s.buffer_emptied_on_panic := by
  induction evs generalizing s with
  | nil => simp [run]
  | cons e evs ih =>
    have htail : ∀ e' ∈ evs, e'.isCycle = false := fun e' h' =>
      h e' (List.mem_cons_of_mem _ h')
    cases e with
    | append r =>
      have h2 := ih (step s (.append r)) htail
      rw [run_cons]
      refine ⟨?_, h2.2⟩
      rw [h2.1]
      simp [step, evAppends, List.append_assoc]
    | hook p =>
      have h2 := ih (step s (.hook p)) htail
      rw [run_cons]
      refine ⟨?_, h2.2⟩
      rw [h2.1]
      simp [step, hookPreWait, hookAppendRecord, hookSetPanicking, evAppends,
        List.append_assoc]
    | cycle i a =>
      have hc := h (Ev.cycle i a) (List.mem_cons_self _ _)
      simp [Ev.isCycle] at hc

/-- If record `r` is not in the buffer, has not yet been delivered to
provider `i`, and no event of the trace appends `r`, then running the trace
never delivers `r` to provider `i` and never puts it back in the buffer. -/
theorem run_no_new_delivery (r : LogAnywhereRecord) (i : Nat) (evs : List Ev)
    (s : GState) (hbuf : r ∉ s.buffer) (happ : ∀ e ∈ evs, r ∉ evAppends e)
    (hrec : ¬ deliveredTo s i r) :
    r ∉ (run s evs).buffer ∧ ¬ deliveredTo (run s evs) i r := by
  induction evs generalizing s with
  | nil => exact ⟨hbuf, hrec⟩
  | cons e evs ih =>
    have he : r ∉ evAppends e := happ e (List.mem_cons_self _ _)
    have htail : ∀ e' ∈ evs, r ∉ evAppends e' := fun e' h' =>
      happ e' (List.mem_cons_of_mem _ h')
    rw [run_cons]
    cases e with
    | append r' =>
      refine ih _ ?_ htail ?_
      · intro hm
        rcases List.mem_append.mp hm with hm | hm
        · exact hbuf hm
        · exact he (by simpa [evAppends] using hm)
      · exact hrec
    | hook p =>
      refine ih _ ?_ htail ?_
      · intro hm
        rcases List.mem_append.mp hm with hm | hm
        · exact hbuf hm
        · exact he (by simpa [evAppends] using hm)
      · exact hrec
    | cycle j a =>
      by_cases hb : s.buffer = []
      · have hs : step s (.cycle j a) = s := by
          simp [step, buffer_loop_cycle_empty j a s hb]
        rw [hs]
        exact ih s hbuf htail hrec
      · obtain ⟨hbuf', hpan, hrecv, hsend, hflag⟩ := buffer_loop_cycle_nonempty j a s hb
        refine ih _ ?_ htail ?_
        · show r ∉ (buffer_loop_cycle j a s).1.buffer
          rw [hbuf']
          intro hm
          exact he (by simpa [evAppends] using hm)
        · intro hd
          obtain ⟨b, hbmem, hrb⟩ := hd
          have hbmem' : b ∈ (buffer_loop_cycle j a s).1.received i := hbmem
          rw [hrecv] at hbmem'
          have hbmem2 : b ∈ (if i = j then s.received i ++ [s.buffer] else s.received i) :=
            hbmem'
          by_cases hij : i = j
          · rw [if_pos hij] at hbmem2
            rcases List.mem_append.mp hbmem2 with hm | hm
            · exact hrec ⟨b, hm, hrb⟩
            · have hb' : b = s.buffer := by simpa using hm
              exact hbuf (hb' ▸ hrb)
          · rw [if_neg hij] at hbmem2
            exact hrec ⟨b, hbmem2, hrb⟩

/-! ### Claims -/

/-- C1: the claim asserts fan-out — with two or more registered backends,
every backend eventually receives every record appended after its
registration exactly once.  The code shares one buffer whose `mem::take`
removes records globally, so after a single `log()` call and one cycle of
provider 0, provider 1 never receives the record: here, after the trace
`c1Trace`, provider 0 received the record, provider 1 received nothing, and
no continuation that does not append the record again can ever deliver it to
provider 1. -/
theorem fanout_failure (rest : List Ev)
    (hrest : ∀ e ∈ rest, recA ∉ evAppends e) :
    (run initG c1Trace).received 0 = [[recA]]
    ∧ (run initG c1Trace).received 1 = []
    ∧ (run initG c1Trace).buffer = []
    ∧ ¬ deliveredTo (run (run initG c1Trace) rest) 1 recA := by
  refine ⟨rfl, rfl, rfl, ?_⟩
  have hbuf : recA ∉ (run initG c1Trace).buffer := by
    rw [show (run initG c1Trace).buffer = [] from rfl]
    exact List.not_mem_nil _
  have hrec : ¬ deliveredTo (run initG c1Trace) 1 recA := by
    rintro ⟨b, hb, -⟩
    rw [show (run initG c1Trace).received 1 = [] from rfl] at hb
    exact List.not_mem_nil _ hb
  exact (run_no_new_delivery recA 1 rest (run initG c1Trace) hbuf hrest hrec).2

theorem fanout_failure_witness :
    ¬ deliveredTo (run (run initG c1Trace) [Ev.cycle 1 []]) 1 recA :=
  (fanout_failure [Ev.cycle 1 []] (by simp [evAppends])).2.2.2

/-- C2: `drain()` (`mem::take` under the buffer mutex) atomically swaps the
buffer for an empty one and returns the prior contents; over any linearized
sequence of appends and drains, the drained batches followed by the current
buffer are exactly the appended records, so no record occurrence is returned
twice (drain results are pairwise disjoint when the appended records are
distinct) and a record in the buffer when a drain begins is returned by
exactly that drain. -/
theorem drain_exclusive (s : BufHist) (evs pre post : List BufEv)
    (hsplit : evs = pre ++ BufEv.drain :: post) :
    bufStep s .drain = { buffer := [], drains := s.drains ++ [s.buffer] }
    ∧ (bufRun evs).drains.flatten ++ (bufRun evs).buffer = bufAppends evs
    ∧ ((bufAppends evs).Nodup → (bufRun evs).drains.Pairwise List.Disjoint)
    ∧ (bufRun evs).drains[(bufRun pre).drains.length]? = some (bufRun pre).buffer := by
  refine ⟨rfl, bufRun_conservation evs, ?_, ?_⟩
  · intro hnd
    have hc := bufRun_conservation evs
    rw [← hc] at hnd
    have hfl : (bufRun evs).drains.flatten.Nodup := hnd.of_append_left
    exact (List.nodup_flatten.mp hfl).2
  · rw [hsplit]
    exact bufRun_drain_batch pre post

theorem drain_exclusive_witness :
    (bufRun [BufEv.append recA, BufEv.drain]).drains.Pairwise List.Disjoint
    ∧ (bufRun [BufEv.append recA, BufEv.drain]).drains[0]? = some [recA] := by
  have h := drain_exclusive { buffer := [], drains := [] }
      ([BufEv.append recA] ++ BufEv.drain :: []) [BufEv.append recA] [] rfl
  exact ⟨h.2.2.1 (by decide), h.2.2.2⟩

/-- C3: N `log()` calls with no intervening drain are returned by the next
drain as exactly N records, each carrying the call's level (rendered),
message, file and line, in call order, and the drain leaves the buffer
empty. -/
theorem single_thread_order (provs : List Nat) (t : Nat) (lvl : LevelFilter)
    (calls : List LogRecord) :
    ((calls.foldl Logger.logRecord (Logger.new provs t lvl)).drainBuffer).1
      = calls.map (fun c =>
          ({ level := c.level.toUpperString, message := c.args
             file := c.file, line := c.line } : LogAnywhereRecord))
    ∧ ((calls.foldl Logger.logRecord
          (Logger.new provs t lvl)).drainBuffer).2.log_buffer_records = [] := by
  constructor
  · show (calls.foldl Logger.logRecord (Logger.new provs t lvl)).log_buffer_records = _
    rw [foldl_logRecord_buffer]
    simp only [Logger.new, List.nil_append]
    rfl
  · rfl

/-- C4: the claim says the crash-time wait is bounded — it ends when
`drained_since_crash` becomes true or a grace period elapses.  The source's
wait (line 89) is an unconditional spin on `buffer_emptied_on_panic`: if no
dispatch cycle ever sets the flag (for instance, with no providers), the
loop is still spinning after any number of polls, so it blocks
indefinitely. -/
theorem spin_wait_unbounded :
    ∀ fuel, spinWait (fun _ => false) fuel = none := by
  have haux : ∀ fuel k, spinWaitAux (fun _ => false) k fuel = none := by
    intro fuel
    induction fuel with
    | zero => intro k; rfl
    | succ n ih => intro k; simpa [spinWaitAux] using ih (k + 1)
  intro fuel
  exact haux fuel 0

/-- C5: the panic hook first sets `is_panicking`, then — with the buffer not
yet touched — appends exactly one record with level `"PANIC"`, the fault's
rendered message, and the fault's file and line when a location is present
(absent otherwise); `buffer_emptied_on_panic` is untouched, and the spin
wait starts only from the post-append state. -/
theorem hook_sequence (p : PanicInfo) (s : GState) :
    (hookSetPanicking s).is_panicking = true
    ∧ (hookSetPanicking s).buffer = s.buffer
    ∧ hookPreWait p s
        = { s with is_panicking := true, buffer := s.buffer ++ [panicRecord p] }
    ∧ (panicRecord p).level = "PANIC"
    ∧ (panicRecord p).message = p.display
    ∧ (panicRecord p).file = p.location.map Prod.fst
    ∧ (panicRecord p).line = p.location.map Prod.snd
    ∧ (hookPreWait p s).buffer_emptied_on_panic = s.buffer_emptied_on_panic :=
  ⟨rfl, rfl, rfl, rfl, rfl, rfl, rfl, rfl⟩

/-- C6: a dispatch cycle that sends (non-empty batch) while `is_panicking`
holds and that finds the buffer empty after its send sets
`buffer_emptied_on_panic`; conversely the flag becomes true only through
that observation; appends and the hook leave it unchanged; and
`is_panicking` is set only by the hook, never by a cycle or an append. -/
theorem drained_flag_protocol (s : GState) (i : Nat)
    (arrivals : List LogAnywhereRecord) (r : LogAnywhereRecord) (p : PanicInfo) :
    (s.is_panicking = true → s.buffer ≠ [] → arrivals = [] →
        (buffer_loop_cycle i arrivals s).1.buffer_emptied_on_panic = true)
    ∧ ((buffer_loop_cycle i arrivals s).1.buffer_emptied_on_panic = true →
        s.buffer_emptied_on_panic = true
        ∨ (s.is_panicking = true ∧ s.buffer ≠ [] ∧ arrivals = []))
    ∧ (step s (.append r)).buffer_emptied_on_panic = s.buffer_emptied_on_panic
    ∧ (hookPreWait p s).buffer_emptied_on_panic = s.buffer_emptied_on_panic
    ∧ (buffer_loop_cycle i arrivals s).1.is_panicking = s.is_panicking
    ∧ (step s (.append r)).is_panicking = s.is_panicking
    ∧ (hookSetPanicking s).is_panicking = true := by
  refine ⟨?_, ?_, rfl, rfl, ?_, rfl, rfl⟩
  · intro hp hb ha
    obtain ⟨-, -, -, -, hflag⟩ := buffer_loop_cycle_nonempty i arrivals s hb
    rw [hflag, hp, ha]
    simp
  · intro hset
    by_cases hb : s.buffer = []
    · rw [buffer_loop_cycle_empty i arrivals s hb] at hset
      exact Or.inl hset
    · obtain ⟨-, -, -, -, hflag⟩ := buffer_loop_cycle_nonempty i arrivals s hb
      rw [hflag] at hset
      rcases Bool.or_eq_true_iff.mp hset with hold | hobs
      · exact Or.inl hold
      · rcases Bool.and_eq_true_iff.mp hobs with ⟨hpan, hemp⟩
        exact Or.inr ⟨hpan, hb, List.isEmpty_iff.mp hemp⟩
  · by_cases hb : s.buffer = []
    · rw [buffer_loop_cycle_empty i arrivals s hb]
    · exact (buffer_loop_cycle_nonempty i arrivals s hb).2.1

theorem drained_flag_protocol_witness :
    (buffer_loop_cycle 0 []
        { initG with buffer := [recA], is_panicking := true }).1.buffer_emptied_on_panic
      = true :=
  (drained_flag_protocol { initG with buffer := [recA], is_panicking := true }
      0 [] recA { payload := "x", location := none }).1 rfl (by simp) rfl

/-- C7: the claim says `enabled(level)` compares against the configured
minimum-severity threshold and rejects some level below it.  The source's
`Log::enabled` body is literally `true`: it returns true for every logger
and every metadata, in particular for a `trace`-level call against a logger
configured with an `error` threshold. -/
theorem enabled_ignores_threshold :
    Logger.enabled (Logger.new [0] 5 LevelFilter.error) { level := Level.trace } = true
    ∧ ∀ (lg : Logger) (m : Metadata), Logger.enabled lg m = true :=
  ⟨rfl, fun _ _ => rfl⟩

/-- C8: a dispatch cycle invokes `send_log` only with a non-empty batch, and
a cycle that begins with an empty buffer (nothing appended since the last
drain) performs no send at all. -/
theorem send_only_nonempty (s : GState) (i : Nat)
    (arrivals b : List LogAnywhereRecord) :
    ((buffer_loop_cycle i arrivals s).2 = some b → b ≠ [])
    ∧ (s.buffer = [] → (buffer_loop_cycle i arrivals s).2 = none) := by
  constructor
  · intro hs
    by_cases hb : s.buffer = []
    · rw [buffer_loop_cycle_empty i arrivals s hb] at hs
      exact absurd hs (by simp)
    · obtain ⟨-, -, -, hsend, -⟩ := buffer_loop_cycle_nonempty i arrivals s hb
      rw [hsend] at hs
      rw [← Option.some_inj.mp hs]
      exact hb
  · intro hb
    rw [buffer_loop_cycle_empty i arrivals s hb]

theorem send_only_nonempty_witness :
    ([recA] ≠ ([] : List LogAnywhereRecord))
    ∧ (buffer_loop_cycle 0 [] initG).2 = none :=
  ⟨(send_only_nonempty { initG with buffer := [recA] } 0 [] [recA]).1 rfl,
   (send_only_nonempty initG 0 [] []).2 rfl⟩

/-- C9: `Log::log` appends exactly one converted record at the end of the
buffer and changes nothing else of the logger: providers, timing, both crash
flags and the configured level are untouched, and the prior buffer contents
and order are preserved as the prefix. -/
theorem log_frame (lg : Logger) (r : LogRecord) :
    (lg.logRecord r).log_buffer_records
      = lg.log_buffer_records ++ [anywhereOfRecord r]
    ∧ (lg.logRecord r).providers = lg.providers
    ∧ (lg.logRecord r).buffer_timing = lg.buffer_timing
    ∧ (lg.logRecord r).buffer_emptied_on_panic = lg.buffer_emptied_on_panic
    ∧ (lg.logRecord r).is_panicking = lg.is_panicking
    ∧ (lg.logRecord r).level = lg.level :=
  ⟨rfl, rfl, rfl, rfl, rfl, rfl⟩

/-- C10: `init` on a logger with no providers still succeeds (when no global
logger is set) and still installs the panic hook, but spawns zero dispatch
loops; in any trace without dispatch cycles the appended records accumulate
(the buffer is exactly the append sequence, never drained) and
`buffer_emptied_on_panic` stays false, so after a fault it can never become
true. -/
theorem init_empty_providers (t : Nat) (lvl : LevelFilter) (evs : List Ev)
    (hnc : ∀ e ∈ evs, e.isCycle = false) :
    (Logger.init (Logger.new [] t lvl) false).result = some ()
    ∧ (Logger.init (Logger.new [] t lvl) false).hookInstalled = true
    ∧ (Logger.init (Logger.new [] t lvl) false).spawnedLoops = 0
    ∧ (run initG evs).buffer = evs.flatMap evAppends
    ∧ (run initG evs).buffer_emptied_on_panic = false := by
  have h := run_no_cycle evs initG hnc
  refine ⟨rfl, rfl, rfl, ?_, ?_⟩
  · rw [h.1]
    rfl
  · rw [h.2]
    rfl

theorem init_empty_providers_witness :
    (Logger.init (Logger.new [] 5 LevelFilter.info) false).spawnedLoops = 0
    ∧ (run initG [Ev.append recA,
          Ev.hook { payload := "boom", location := none }]).buffer_emptied_on_panic
        = false :=
  ⟨(init_empty_providers 5 LevelFilter.info [] (by simp)).2.2.1,
   (init_empty_providers 5 LevelFilter.info
      [Ev.append recA, Ev.hook { payload := "boom", location := none }]
      (by simp [Ev.isCycle])).2.2.2.2⟩

end LogAnywhere
